import Mathlib

/-!
Verification development for the burger-racing / platformer repository.

The embedding below translates the state-bearing logic of the repository
into executable Lean definitions over the rationals:

* `BurgerVehicle` — the vehicle controller of `BurgerVehicle.ts`
  (`handleInput`, `applyPhysics`, `update`).  JavaScript numbers are
  modelled as `ℚ`; `Math.sin` and `Math.cos` are abstracted as function
  parameters `sinF cosF : ℚ → ℚ` (with the bound `|sinF r| ≤ 1` added as a
  hypothesis where a proof needs it), so every theorem quantifying over
  them holds in particular for the real sine and cosine.  The camera
  fields (`cameraRotationX/Y`) are omitted: they feed back into nothing
  that the claims mention.
* `RacingGame` — the checkpoint / lap state machine of
  `RacingGame.checkCheckpoints`.  `Date.now()` is modelled by an explicit
  `now : ℚ` argument (milliseconds); the `Infinity` sentinel of
  `bestTime` is modelled as `Option ℚ` with `none` standing for
  `Infinity` (every rational lap time is `< Infinity`, matching the
  source comparison `lapTime < this.bestTime`).
* `Sword` — the collectible of `Sword.ts` (`update`, `checkCollision`,
  `collect`).  Scene-graph removal in `collect` has no further effect on
  the modelled state and is not represented.

Real-valued distances: the source compares `distanceTo(...) < c` with a
nonnegative constant or `playerRadius + 0.5`.  Square roots are not
rational, so the comparison is embedded on squares: for `0 ≤ c`,
`dist < c ↔ distSq < c ^ 2`; where `c` is not a constant the guard
`0 ≤ c` is kept in the embedded condition so that the embedded test
agrees with the source comparison for every radius, negative ones
included (for `c < 0` both are false).
-/

namespace BurgerRacing

/-- A 3D point / vector with rational coordinates (`THREE.Vector3`). -/
structure Vec3 where
  x : ℚ
  y : ℚ
  z : ℚ
deriving DecidableEq

/-- Squared Euclidean distance; `a.distanceTo b < c` with `0 ≤ c` is
embedded as `distSq a b < c * c`. -/
def distSq (a b : Vec3) : ℚ :=
  (a.x - b.x) * (a.x - b.x) + (a.y - b.y) * (a.y - b.y) + (a.z - b.z) * (a.z - b.z)

/-- Squared planar (x/z) distance.  This is NOT what the source computes:
it is the comparator that the specification text describes
(`Computes planar distance from vehiclePosition to checkpoints[...]`),
kept for comparison against the source's full 3D distance. -/
def planarDistSq (a b : Vec3) : ℚ :=
  (a.x - b.x) * (a.x - b.x) + (a.z - b.z) * (a.z - b.z)

namespace BurgerVehicle

/-- The four boolean intents read at the top of `handleInput`
(keyboard or joystick, already collapsed to booleans). -/
structure VInput where
  accelerate : Bool
  brake : Bool
  turnLeft : Bool
  turnRight : Bool
deriving DecidableEq

/-- Vehicle state (`BurgerVehicle` fields).  `position.y` is set to `0.5`
in the constructor and never written again, so only `x` and `z` are
carried. -/
structure VState where
  x : ℚ
  z : ℚ
  rotation : ℚ
  speed : ℚ
  currentTurn : ℚ
deriving DecidableEq

/-- `maxSpeed = 0.3`. -/
def maxSpeed : ℚ := 3 / 10

/-- `acceleration = 0.008`. -/
def acceleration : ℚ := 1 / 125

/-- `deceleration = 0.01`. -/
def deceleration : ℚ := 1 / 100

/-- `turnSpeed = 0.03`. -/
def turnSpeed : ℚ := 3 / 100

/-- `boundary = 50` in `applyPhysics`. -/
def boundary : ℚ := 50

/-- The longitudinal (speed) block of `handleInput`:
`if accelerate … else if brake … else natural deceleration`. -/
def longitudinalStep (inp : VInput) (speed : ℚ) : ℚ :=
  if inp.accelerate then min (speed + acceleration) maxSpeed
  else if inp.brake then max (speed - deceleration * (3 / 2)) (-(maxSpeed * (1 / 2)))
  else if speed > 0 then max 0 (speed - deceleration)
  else if speed < 0 then min 0 (speed + deceleration)
  else speed

/-- `Math.abs`. -/
def qabs (q : ℚ) : ℚ := if q < 0 then -q else q

/-- The steering block of `handleInput`, acting on `currentTurn`; its
speed test uses the speed value just written by the longitudinal block. -/
def turnStep (inp : VInput) (newSpeed turn : ℚ) : ℚ :=
  if qabs newSpeed > 1 / 100 then
    if inp.turnLeft then max (-1) (turn - turnSpeed)
    else if inp.turnRight then min 1 (turn + turnSpeed)
    else if turn > 0 then max 0 (turn - turnSpeed)
    else if turn < 0 then min 0 (turn + turnSpeed)
    else turn
  else 0

/-- `handleInput`: longitudinal update, steering update, then
`rotation += currentTurn * |speed| * 0.1` with the freshly written
`currentTurn` and `speed`. -/
def handleInput (inp : VInput) (s : VState) : VState :=
  let speed1 := longitudinalStep inp s.speed
  let turn1 := turnStep inp speed1 s.currentTurn
  { s with
    speed := speed1
    currentTurn := turn1
    rotation := s.rotation + turn1 * qabs speed1 * (1 / 10) }

/-- `Math.sign`. -/
def qsign (q : ℚ) : ℚ := if q > 0 then 1 else if q < 0 then -1 else 0

/-- `applyPhysics`: move along the (already updated) heading, then clamp
`x` and `z` independently against the arena boundary, halving the speed
for each coordinate that exceeded it. -/
def applyPhysics (sinF cosF : ℚ → ℚ) (s : VState) : VState :=
  let x1 := s.x + sinF s.rotation * s.speed
  let z1 := s.z + cosF s.rotation * s.speed
  let x2 := if qabs x1 > boundary then qsign x1 * boundary else x1
  let v1 := if qabs x1 > boundary then s.speed * (1 / 2) else s.speed
  let z2 := if qabs z1 > boundary then qsign z1 * boundary else z1
  let v2 := if qabs z1 > boundary then v1 * (1 / 2) else v1
  { s with x := x2, z := z2, speed := v2 }

/-- One `update` tick: `handleInput` followed by `applyPhysics`
(`updateMesh`/`updateCamera` write no modelled state). -/
def update (sinF cosF : ℚ → ℚ) (inp : VInput) (s : VState) : VState :=
  applyPhysics sinF cosF (handleInput inp s)

/-- Constructor state: position `(0, 0.5, 0)`, everything else `0`. -/
def initialVState : VState :=
  { x := 0, z := 0, rotation := 0, speed := 0, currentTurn := 0 }

/-- Run a list of ticks, first input applied first. -/
def run (sinF cosF : ℚ → ℚ) (inps : List VInput) (s : VState) : VState :=
  inps.foldl (fun t inp => update sinF cosF inp t) s

/-- Iterate `update` with one fixed input for `n` ticks. -/
def iter (sinF cosF : ℚ → ℚ) (inp : VInput) : ℕ → VState → VState
  | 0, s => s
  | n + 1, s => update sinF cosF inp (iter sinF cosF inp n s)

/-- No key held. -/
def noInput : VInput := ⟨false, false, false, false⟩

/-- Only accelerate held. -/
def accelInput : VInput := ⟨true, false, false, false⟩

/-- Only steer-left held. -/
def leftInput : VInput := ⟨false, false, true, false⟩

/-- Only steer-right held. -/
def rightInput : VInput := ⟨false, false, false, true⟩

/-- The natural-deceleration branch of `handleInput` in isolation. -/
def decaySpeed (v : ℚ) : ℚ :=
  if v > 0 then max 0 (v - deceleration)
  else if v < 0 then min 0 (v + deceleration)
  else v

/-- Upper bound on the total distance a coasting vehicle can still cover
before its speed decays to 0: with `v = |speed|` the remaining travel is
`v' + (v'-0.01) + … ≤ 50 v² + v/2`. -/
def travelBound (v : ℚ) : ℚ := 50 * v * v + v / 2

/-- Decidable check that along a run every tick's post-longitudinal speed
is inside the turn deadzone (the speed value `handleInput` tests). -/
def deadzoneRun (sinF cosF : ℚ → ℚ) : List VInput → VState → Bool
  | [], _ => true
  | inp :: rest, s =>
    decide (qabs (longitudinalStep inp s.speed) ≤ 1 / 100) &&
      deadzoneRun sinF cosF rest (update sinF cosF inp s)

/-- The x coordinate `applyPhysics` computes before clamping
(`position.x + Math.sin(rotation) * speed` after `handleInput`). -/
def movedX (sinF : ℚ → ℚ) (inp : VInput) (s : VState) : ℚ :=
  (handleInput inp s).x + sinF (handleInput inp s).rotation * (handleInput inp s).speed

/-- The z coordinate `applyPhysics` computes before clamping. -/
def movedZ (cosF : ℚ → ℚ) (inp : VInput) (s : VState) : ℚ :=
  (handleInput inp s).z + cosF (handleInput inp s).rotation * (handleInput inp s).speed

/-- Closed form for the z coordinate along the accelerate-only run from
the start state with heading 0: each tick adds the tick's speed
`min((k)/125, 3/10)`. -/
def accelZ : ℕ → ℚ
  | 0 => 0
  | n + 1 => accelZ n + min (((n : ℚ) + 1) / 125) (3 / 10)

/-- Margin hypothesis for coasting runs: the vehicle is far enough from
the arena boundary that the remaining decaying travel cannot reach it. -/
def coastInv (s : VState) : Prop :=
  qabs s.x + travelBound (qabs s.speed) ≤ 50 ∧
    qabs s.z + travelBound (qabs s.speed) ≤ 50

end BurgerVehicle

namespace RacingGame

/-- Lap-tracking state of `RacingGame`.  `startTime` is the
`Date.now()`-style millisecond timestamp of the current lap's start;
`bestTime` is in seconds, `none` standing for the `Infinity` sentinel. -/
structure TrackState where
  checkpoints : List Vec3
  currentCheckpoint : ℕ
  lapCount : ℕ
  startTime : ℚ
  bestTime : Option ℚ
deriving DecidableEq

/-- `checkCheckpoints`, with the vehicle position and the current
`Date.now()` value passed explicitly.  The radius test
`distanceTo < 3` is embedded as `distSq < 9`; the source's early return
on an empty checkpoint list is the `none` case of the lookup (for a
nonempty list the cursor is kept in range by the update itself, so the
lookup never fails along real runs). -/
def checkCheckpoints (pos : Vec3) (now : ℚ) (t : TrackState) : TrackState :=
  match t.checkpoints.get? t.currentCheckpoint with
  | none => t
  | some cp =>
    if distSq pos cp < 9 then
      if t.checkpoints.length ≤ t.currentCheckpoint + 1 then
        let lapTime := (now - t.startTime) / 1000
        { t with
          currentCheckpoint := 0
          lapCount := t.lapCount + 1
          bestTime := some (match t.bestTime with
            | none => lapTime
            | some b => if lapTime < b then lapTime else b)
          startTime := now }
      else { t with currentCheckpoint := t.currentCheckpoint + 1 }
    else t

end RacingGame

namespace Sword

/-- Sword state.  `basePos` is `this.position` (fixed after construction);
`meshPos` is `this.mesh.position`, whose `y` the float animation rewrites
each tick; `meshRotZ` and `floatOffset` drive the idle animation. -/
structure SwordState where
  collected : Bool
  basePos : Vec3
  meshPos : Vec3
  meshRotZ : ℚ
  floatOffset : ℚ

/-- `rotationSpeed = 0.03`. -/
def rotationSpeed : ℚ := 3 / 100

/-- `floatSpeed = 0.001`. -/
def floatSpeed : ℚ := 1 / 1000

/-- `Sword.update`: no-op once collected, otherwise spin and float
(`mesh.position.y = position.y + sin(floatOffset) * 0.15`). -/
def swordUpdate (sinF : ℚ → ℚ) (s : SwordState) : SwordState :=
  if s.collected then s
  else
    let fo := s.floatOffset + floatSpeed
    { s with
      meshRotZ := s.meshRotZ + rotationSpeed
      floatOffset := fo
      meshPos := { s.meshPos with y := s.basePos.y + sinF fo * (3 / 20) } }

/-- `Sword.checkCollision`: `false` once collected; otherwise collect and
return `true` exactly when `mesh.position.distanceTo(playerPosition) <
playerRadius + 0.5` (embedded on squares, with the `0 ≤` guard making the
test agree with the source for negative radii as well). -/
def checkCollision (playerPos : Vec3) (playerRadius : ℚ) (s : SwordState) :
    Bool × SwordState :=
  if s.collected then (false, s)
  else if 0 ≤ playerRadius + 1 / 2 ∧
      distSq s.meshPos playerPos < (playerRadius + 1 / 2) * (playerRadius + 1 / 2) then
    (true, { s with collected := true })
  else (false, s)

/-- The two operations the outside world can apply to a sword. -/
inductive SwordOp where
  | upd (sinF : ℚ → ℚ)
  | chk (p : Vec3) (r : ℚ)

/-- Apply one operation, keeping only the state. -/
def applySwordOp : SwordOp → SwordState → SwordState
  | .upd sf, s => swordUpdate sf s
  | .chk p r, s => (checkCollision p r s).2

/-- Apply a sequence of operations in order. -/
def applySwordOps (ops : List SwordOp) (s : SwordState) : SwordState :=
  ops.foldl (fun t op => applySwordOp op t) s

end Sword

namespace RacingGame

lemma if_lt_eq_min (a b : ℚ) : (if a < b then a else b) = min a b := by
  rcases le_or_lt b a with h | h
  · rw [if_neg (not_lt.mpr h), min_eq_right h]
  · rw [if_pos h, min_eq_left h.le]

lemma checkCheckpoints_of_get (pos cp : Vec3) (now : ℚ) (t : TrackState)
    (hget : t.checkpoints.get? t.currentCheckpoint = some cp) :
    checkCheckpoints pos now t =
      if distSq pos cp < 9 then
        if t.checkpoints.length ≤ t.currentCheckpoint + 1 then
          { t with
            currentCheckpoint := 0
            lapCount := t.lapCount + 1
            bestTime := some (match t.bestTime with
              | none => (now - t.startTime) / 1000
              | some b => if (now - t.startTime) / 1000 < b then
                  (now - t.startTime) / 1000 else b)
            startTime := now }
        else { t with currentCheckpoint := t.currentCheckpoint + 1 }
      else t := by
  unfold checkCheckpoints
  rw [hget]

end RacingGame

end BurgerRacing

open BurgerRacing BurgerRacing.BurgerVehicle BurgerRacing.RacingGame BurgerRacing.Sword

/-- Claim C1: when `checkCheckpoints` runs with the cursor on the last
checkpoint of the sequence and the vehicle within the checkpoint radius
of it, the cursor resets to 0, `lapCount` grows by exactly one, the lap
duration `(now - startTime) / 1000` is computed and the best lap time
becomes the minimum of its previous value and this duration (the
duration itself on a first lap, where the previous value is the
`Infinity` sentinel), and the lap start timestamp is reset to `now`. -/
theorem checkCheckpoints_lap_completion (t : TrackState) (pos cp : Vec3) (now : ℚ)
    (hget : t.checkpoints.get? t.currentCheckpoint = some cp)
    (hlast : t.currentCheckpoint + 1 = t.checkpoints.length)
    (hdist : distSq pos cp < 9) :
    (checkCheckpoints pos now t).currentCheckpoint = 0 ∧
    (checkCheckpoints pos now t).lapCount = t.lapCount + 1 ∧
    (checkCheckpoints pos now t).startTime = now ∧
    (checkCheckpoints pos now t).bestTime =
      some (min ((now - t.startTime) / 1000)
        (t.bestTime.getD ((now - t.startTime) / 1000))) := by
  rw [checkCheckpoints_of_get pos cp now t hget, if_pos hdist,
    if_pos (le_of_eq hlast.symm)]
  refine ⟨rfl, rfl, rfl, ?_⟩
  cases t.bestTime with
  | none => simp
  | some b => simp [if_lt_eq_min]

/-- Witness for C1 at a concrete lap completion: one checkpoint, cursor
on it, vehicle at distance √2 < 3, previous best 7 s, lap time 9 s. -/
theorem checkCheckpoints_lap_completion_witness :
    (checkCheckpoints ⟨1, 0, 1⟩ 9100 ⟨[⟨0, 0, 0⟩], 0, 5, 100, some 7⟩).currentCheckpoint = 0 ∧
    (checkCheckpoints ⟨1, 0, 1⟩ 9100 ⟨[⟨0, 0, 0⟩], 0, 5, 100, some 7⟩).lapCount = 5 + 1 ∧
    (checkCheckpoints ⟨1, 0, 1⟩ 9100 ⟨[⟨0, 0, 0⟩], 0, 5, 100, some 7⟩).startTime = 9100 ∧
    (checkCheckpoints ⟨1, 0, 1⟩ 9100 ⟨[⟨0, 0, 0⟩], 0, 5, 100, some 7⟩).bestTime =
      some (min ((9100 - (100 : ℚ)) / 1000)
        ((some (7 : ℚ)).getD ((9100 - (100 : ℚ)) / 1000))) :=
  checkCheckpoints_lap_completion ⟨[⟨0, 0, 0⟩], 0, 5, 100, some 7⟩ ⟨1, 0, 1⟩ ⟨0, 0, 0⟩ 9100
    rfl rfl (by norm_num [distSq])

/-- Claim C3 (amended): `checkCheckpoints` compares the full 3D Euclidean
distance (not the planar x/z distance) between the vehicle position and
the current checkpoint against the radius 3: it advances the cursor (one
step, wrapping modulo the sequence length) exactly when that distance is
strictly below 3, and returns the state completely unchanged otherwise. -/
theorem checkCheckpoints_advance_iff_3d (t : TrackState) (pos cp : Vec3) (now : ℚ)
    (hget : t.checkpoints.get? t.currentCheckpoint = some cp) :
    (distSq pos cp < 9 →
      (checkCheckpoints pos now t).currentCheckpoint =
        (t.currentCheckpoint + 1) % t.checkpoints.length) ∧
    (9 ≤ distSq pos cp → checkCheckpoints pos now t = t) := by
  obtain ⟨hlen, -⟩ := List.get?_eq_some.mp hget
  rw [checkCheckpoints_of_get pos cp now t hget]
  constructor
  · intro hd
    rw [if_pos hd]
    by_cases hc : t.checkpoints.length ≤ t.currentCheckpoint + 1
    · rw [if_pos hc]
      have he : t.currentCheckpoint + 1 = t.checkpoints.length := le_antisymm hlen hc
      simp [he, Nat.mod_self]
    · rw [if_neg hc]
      simp [Nat.mod_eq_of_lt (not_le.mp hc)]
  · intro hd
    rw [if_neg (not_lt.mpr hd)]

/-- Witness for the amended C3: cursor 0 of two checkpoints, vehicle at
3D distance √2 < 3 from it; the cursor advances to 1 = (0 + 1) % 2. -/
theorem checkCheckpoints_advance_iff_3d_witness :
    (checkCheckpoints ⟨1, 0, 1⟩ 0
      ⟨[⟨0, 0, 0⟩, ⟨10, 0, 10⟩], 0, 0, 0, none⟩).currentCheckpoint = 1 := by
  have h := (checkCheckpoints_advance_iff_3d ⟨[⟨0, 0, 0⟩, ⟨10, 0, 10⟩], 0, 0, 0, none⟩
    ⟨1, 0, 1⟩ ⟨0, 0, 0⟩ 0 rfl).1 (by norm_num [distSq])
  simpa using h

/-- Counterexample to C3 as stated: at planar distance 2.97 < 3 but
vehicle height y = 0.5 above the checkpoint, the 3D distance satisfies
2.97² + 0.5² = 9.0709 ≥ 9, and the call leaves the state unchanged
(cursor still 0), although the claim, reading the test as planar,
demands an advance to cursor 1. -/
theorem checkCheckpoints_planar_radius_counterexample :
    planarDistSq ⟨297 / 100, 1 / 2, 0⟩ ⟨0, 0, 0⟩ < 9 ∧
    ¬ distSq ⟨297 / 100, 1 / 2, 0⟩ ⟨0, 0, 0⟩ < 9 ∧
    checkCheckpoints ⟨297 / 100, 1 / 2, 0⟩ 0
        ⟨[⟨0, 0, 0⟩, ⟨10, 0, 10⟩], 0, 0, 0, none⟩ =
      ⟨[⟨0, 0, 0⟩, ⟨10, 0, 10⟩], 0, 0, 0, none⟩ := by
  refine ⟨by norm_num [planarDistSq], by norm_num [distSq], ?_⟩
  rw [checkCheckpoints_of_get ⟨297 / 100, 1 / 2, 0⟩ ⟨0, 0, 0⟩ 0
    ⟨[⟨0, 0, 0⟩, ⟨10, 0, 10⟩], 0, 0, 0, none⟩ rfl, if_neg (by norm_num [distSq])]

/-- Claim C5: with the cursor in range, one `checkCheckpoints` call moves
the cursor by at most one step — it stays, increments by one, or wraps
from the last index to 0 — and it stays within `[0, checkpoints.length)`;
intermediate checkpoints are never registered in a single call. -/
theorem checkCheckpoints_cursor_single_step (t : TrackState) (pos : Vec3) (now : ℚ)
    (h : t.currentCheckpoint < t.checkpoints.length) :
    (checkCheckpoints pos now t).currentCheckpoint < t.checkpoints.length ∧
    ((checkCheckpoints pos now t).currentCheckpoint = t.currentCheckpoint ∨
     (checkCheckpoints pos now t).currentCheckpoint = t.currentCheckpoint + 1 ∨
     (t.currentCheckpoint + 1 = t.checkpoints.length ∧
      (checkCheckpoints pos now t).currentCheckpoint = 0)) := by
  obtain ⟨cp, hget⟩ : ∃ cp, t.checkpoints.get? t.currentCheckpoint = some cp :=
    ⟨_, List.get?_eq_get h⟩
  rw [checkCheckpoints_of_get pos cp now t hget]
  by_cases hd : distSq pos cp < 9
  · rw [if_pos hd]
    by_cases hc : t.checkpoints.length ≤ t.currentCheckpoint + 1
    · rw [if_pos hc]
      exact ⟨Nat.lt_of_le_of_lt (Nat.zero_le _) h,
        Or.inr (Or.inr ⟨le_antisymm h hc, rfl⟩)⟩
    · rw [if_neg hc]
      exact ⟨not_le.mp hc, Or.inr (Or.inl rfl)⟩
  · rw [if_neg hd]
    exact ⟨h, Or.inl rfl⟩

/-- Witness for C5 at the spec's distance-0 scenario: vehicle exactly on
checkpoint 0 of two; the single call keeps the cursor in range and moves
it by exactly one step. -/
theorem checkCheckpoints_cursor_single_step_witness :
    (checkCheckpoints ⟨0, 0, 0⟩ 0
      ⟨[⟨0, 0, 0⟩, ⟨5, 0, 5⟩], 0, 0, 0, none⟩).currentCheckpoint < 2 ∧
    ((checkCheckpoints ⟨0, 0, 0⟩ 0
        ⟨[⟨0, 0, 0⟩, ⟨5, 0, 5⟩], 0, 0, 0, none⟩).currentCheckpoint = 0 ∨
     (checkCheckpoints ⟨0, 0, 0⟩ 0
        ⟨[⟨0, 0, 0⟩, ⟨5, 0, 5⟩], 0, 0, 0, none⟩).currentCheckpoint = 0 + 1 ∨
     (0 + 1 = 2 ∧ (checkCheckpoints ⟨0, 0, 0⟩ 0
        ⟨[⟨0, 0, 0⟩, ⟨5, 0, 5⟩], 0, 0, 0, none⟩).currentCheckpoint = 0)) :=
  checkCheckpoints_cursor_single_step ⟨[⟨0, 0, 0⟩, ⟨5, 0, 5⟩], 0, 0, 0, none⟩
    ⟨0, 0, 0⟩ 0 (by norm_num)

lemma swordUpdate_collected (sf : ℚ → ℚ) (s : SwordState) (h : s.collected = true) :
    swordUpdate sf s = s := by
  simp [swordUpdate, h]

lemma checkCollision_collected (p : Vec3) (r : ℚ) (s : SwordState)
    (h : s.collected = true) : checkCollision p r s = (false, s) := by
  simp [checkCollision, h]

lemma applySwordOp_collected (op : SwordOp) (s : SwordState) (h : s.collected = true) :
    applySwordOp op s = s := by
  cases op with
  | upd sf => exact swordUpdate_collected sf s h
  | chk p r => simp [applySwordOp, checkCollision_collected p r s h]

lemma applySwordOps_collected (ops : List SwordOp) :
    ∀ s : SwordState, s.collected = true → applySwordOps ops s = s := by
  induction ops with
  | nil => intro s _; rfl
  | cons op rest ih =>
    intro s h
    show applySwordOps rest (applySwordOp op s) = s
    rw [applySwordOp_collected op s h]
    exact ih s h

/-- Claim C10: once a sword is collected the flag is permanent — any
sequence of further `update`/`checkCollision` operations leaves the state
untouched and every `checkCollision` reports `false`; before collection,
`checkCollision` collects and returns `true` exactly when the squared
distance from the (animated) sword mesh position to the player is below
`(playerRadius + 0.5)²`, and is a pure no-op otherwise. -/
theorem sword_collected_forever (s : SwordState) (p : Vec3) (r : ℚ)
    (sf : ℚ → ℚ) (ops : List SwordOp) :
    (s.collected = true →
      applySwordOps ops s = s ∧ checkCollision p r s = (false, s) ∧
        swordUpdate sf s = s) ∧
    (s.collected = false → 0 ≤ r →
      (((checkCollision p r s).1 = true ∧ (checkCollision p r s).2.collected = true) ↔
        distSq s.meshPos p < (r + 1 / 2) * (r + 1 / 2)) ∧
      (¬ distSq s.meshPos p < (r + 1 / 2) * (r + 1 / 2) →
        checkCollision p r s = (false, s))) := by
  constructor
  · intro h
    exact ⟨applySwordOps_collected ops s h, checkCollision_collected p r s h,
      swordUpdate_collected sf s h⟩
  · intro h hr
    have hg : 0 ≤ r + 1 / 2 := by linarith
    by_cases hd : distSq s.meshPos p < (r + 1 / 2) * (r + 1 / 2)
    · constructor
      · rw [checkCollision, if_neg (by simp [h]), if_pos ⟨hg, hd⟩]
        simpa using hd
      · intro hc; exact absurd hd hc
    · constructor
      · rw [checkCollision, if_neg (by simp [h]), if_neg (by tauto)]
        simpa [h] using hd
      · intro _
        rw [checkCollision, if_neg (by simp [h]), if_neg (by tauto)]

/-- Witness for C10: a collected sword is untouched by a
check-then-update sequence, by a collision check and by an update. -/
theorem sword_collected_forever_witness :
    applySwordOps [SwordOp.chk ⟨0, 0, 0⟩ 2, SwordOp.upd (fun _ => 0)]
        ⟨true, ⟨0, 0, 0⟩, ⟨0, 0, 0⟩, 0, 0⟩ = ⟨true, ⟨0, 0, 0⟩, ⟨0, 0, 0⟩, 0, 0⟩ ∧
    checkCollision ⟨1, 1, 1⟩ 1 ⟨true, ⟨0, 0, 0⟩, ⟨0, 0, 0⟩, 0, 0⟩ =
      (false, ⟨true, ⟨0, 0, 0⟩, ⟨0, 0, 0⟩, 0, 0⟩) ∧
    swordUpdate (fun _ => 0) ⟨true, ⟨0, 0, 0⟩, ⟨0, 0, 0⟩, 0, 0⟩ =
      ⟨true, ⟨0, 0, 0⟩, ⟨0, 0, 0⟩, 0, 0⟩ :=
  (sword_collected_forever ⟨true, ⟨0, 0, 0⟩, ⟨0, 0, 0⟩, 0, 0⟩ ⟨1, 1, 1⟩ 1 (fun _ => 0)
    [SwordOp.chk ⟨0, 0, 0⟩ 2, SwordOp.upd (fun _ => 0)]).1 rfl

lemma longitudinalStep_bounds (inp : VInput) (v : ℚ)
    (h1 : -(3 / 20) ≤ v) (h2 : v ≤ 3 / 10) :
    -(3 / 20) ≤ longitudinalStep inp v ∧ longitudinalStep inp v ≤ 3 / 10 := by
  unfold longitudinalStep acceleration deceleration maxSpeed
  simp only [min_def, max_def]
  split_ifs <;> constructor <;> linarith

lemma applyPhysics_speed_eq (sinF cosF : ℚ → ℚ) (s : VState) :
    (applyPhysics sinF cosF s).speed =
      if qabs (s.z + cosF s.rotation * s.speed) > boundary then
        (if qabs (s.x + sinF s.rotation * s.speed) > boundary then s.speed * (1 / 2)
          else s.speed) * (1 / 2)
      else if qabs (s.x + sinF s.rotation * s.speed) > boundary then s.speed * (1 / 2)
      else s.speed := rfl

lemma applyPhysics_speed_bounds (sinF cosF : ℚ → ℚ) (s : VState)
    (h1 : -(3 / 20) ≤ s.speed) (h2 : s.speed ≤ 3 / 10) :
    -(3 / 20) ≤ (applyPhysics sinF cosF s).speed ∧
      (applyPhysics sinF cosF s).speed ≤ 3 / 10 := by
  rw [applyPhysics_speed_eq]
  split_ifs <;> constructor <;> linarith

lemma run_speed_bounds (sinF cosF : ℚ → ℚ) (inps : List VInput) :
    ∀ s : VState, -(3 / 20) ≤ s.speed → s.speed ≤ 3 / 10 →
      -(3 / 20) ≤ (run sinF cosF inps s).speed ∧
        (run sinF cosF inps s).speed ≤ 3 / 10 := by
  induction inps with
  | nil => intro s h1 h2; exact ⟨h1, h2⟩
  | cons inp rest ih =>
    intro s h1 h2
    have hs := longitudinalStep_bounds inp s.speed h1 h2
    have hb := applyPhysics_speed_bounds sinF cosF (handleInput inp s) hs.1 hs.2
    exact ih (update sinF cosF inp s) hb.1 hb.2

/-- Claim C2: starting from the constructor state (speed 0), after every
sequence of `update` ticks — any input booleans, any trigonometric
values, boundary clamps included — the speed stays inside
`[-maxSpeed * 0.5, maxSpeed]`. -/
theorem speed_always_in_bounds (sinF cosF : ℚ → ℚ) (inps : List VInput) :
    -(maxSpeed * (1 / 2)) ≤ (run sinF cosF inps initialVState).speed ∧
    (run sinF cosF inps initialVState).speed ≤ maxSpeed := by
  have h := run_speed_bounds sinF cosF inps initialVState
    (by norm_num [initialVState]) (by norm_num [initialVState])
  constructor
  · have h1 := h.1
    have he : -(maxSpeed * (1 / 2)) = -(3 / 20) := by norm_num [maxSpeed]
    rw [he]; exact h1
  · have h2 := h.2
    have he : maxSpeed = 3 / 10 := rfl
    rw [he]; exact h2

lemma update_currentTurn (sinF cosF : ℚ → ℚ) (inp : VInput) (s : VState) :
    (update sinF cosF inp s).currentTurn =
      turnStep inp (longitudinalStep inp s.speed) s.currentTurn := rfl

lemma turnStep_deadzone (inp : VInput) (w t : ℚ) (h : qabs w ≤ 1 / 100) :
    turnStep inp w t = 0 := by
  unfold turnStep
  rw [if_neg (not_lt.mpr h)]

lemma turnStep_abs_le_one (inp : VInput) (w t : ℚ) (ht : |t| ≤ 1) :
    |turnStep inp w t| ≤ 1 := by
  rw [abs_le] at ht ⊢
  unfold turnStep turnSpeed
  simp only [min_def, max_def]
  split_ifs <;> constructor <;> linarith

lemma turnStep_move_bound (inp : VInput) (w t : ℚ) (ht : |t| ≤ 1)
    (hw : 1 / 100 < qabs w) : |turnStep inp w t - t| ≤ 3 / 100 := by
  rw [abs_le] at ht
  rw [abs_le]
  unfold turnStep turnSpeed
  rw [if_pos hw]
  simp only [min_def, max_def]
  split_ifs <;> constructor <;> linarith

/-- Claim C4 (amended): on a state with `|currentTurn| ≤ 1` (an invariant
of all reachable states, re-established by the first conjunct), a single
`update` changes `currentTurn` by at most `turnSpeed = 0.03` whenever the
post-longitudinal `|speed|` is above the deadzone `0.01`; when it is at
or below the deadzone, `currentTurn` is instead snapped to 0, a jump
that can exceed `turnSpeed`. -/
theorem currentTurn_change_bound (sinF cosF : ℚ → ℚ) (inp : VInput) (s : VState)
    (ht : |s.currentTurn| ≤ 1) :
    |(update sinF cosF inp s).currentTurn| ≤ 1 ∧
    (1 / 100 < qabs (longitudinalStep inp s.speed) →
      |(update sinF cosF inp s).currentTurn - s.currentTurn| ≤ turnSpeed) ∧
    (qabs (longitudinalStep inp s.speed) ≤ 1 / 100 →
      (update sinF cosF inp s).currentTurn = 0) := by
  rw [update_currentTurn]
  exact ⟨turnStep_abs_le_one inp _ _ ht,
    fun hw => turnStep_move_bound inp _ _ ht hw,
    fun hw => turnStep_deadzone inp _ _ hw⟩

/-- Witness for the amended C4 at speed 0.2, `currentTurn` 0.5,
steer-right held: the change is exactly `turnSpeed`. -/
theorem currentTurn_change_bound_witness :
    |(update (fun _ => 0) (fun _ => 1) rightInput ⟨0, 0, 0, 1 / 5, 1 / 2⟩).currentTurn| ≤ 1 ∧
    (1 / 100 < qabs (longitudinalStep rightInput (1 / 5)) →
      |(update (fun _ => 0) (fun _ => 1) rightInput
        ⟨0, 0, 0, 1 / 5, 1 / 2⟩).currentTurn - 1 / 2| ≤ turnSpeed) ∧
    (qabs (longitudinalStep rightInput (1 / 5)) ≤ 1 / 100 →
      (update (fun _ => 0) (fun _ => 1) rightInput
        ⟨0, 0, 0, 1 / 5, 1 / 2⟩).currentTurn = 0) :=
  currentTurn_change_bound (fun _ => 0) (fun _ => 1) rightInput ⟨0, 0, 0, 1 / 5, 1 / 2⟩
    (abs_le.mpr (by constructor <;> norm_num))

/-- Counterexample to C4 as stated: from the constructor state, the
reachable four-tick run accelerate / accelerate+right / accelerate+right
/ right-only ends with `currentTurn = 0.09` and speed `0.014`; the next
no-input tick decays the speed to `0.004`, inside the deadzone, and
`currentTurn` snaps from `0.09` to `0` — a change of `0.09 > turnSpeed`,
so the per-tick bound does not hold on a tick where the speed falls to
or below the deadzone. -/
theorem currentTurn_deadzone_snap_counterexample :
    (run (fun _ => 0) (fun _ => 1)
      [accelInput, ⟨true, false, false, true⟩, ⟨true, false, false, true⟩, rightInput]
      initialVState).currentTurn = 9 / 100 ∧
    (update (fun _ => 0) (fun _ => 1) noInput
      (run (fun _ => 0) (fun _ => 1)
        [accelInput, ⟨true, false, false, true⟩, ⟨true, false, false, true⟩, rightInput]
        initialVState)).currentTurn = 0 ∧
    ¬ |(0 : ℚ) - 9 / 100| ≤ turnSpeed := by
  have e1 : update (fun _ => 0) (fun _ => 1) accelInput initialVState =
      ⟨0, 1 / 125, 0, 1 / 125, 0⟩ := by
    norm_num [update, applyPhysics, handleInput, longitudinalStep, turnStep, qabs, qsign,
      initialVState, accelInput, maxSpeed, acceleration, deceleration, turnSpeed, boundary,
      min_def, max_def]
  have e2 : update (fun _ => 0) (fun _ => 1) ⟨true, false, false, true⟩
      ⟨0, 1 / 125, 0, 1 / 125, 0⟩ = ⟨0, 3 / 125, 3 / 62500, 2 / 125, 3 / 100⟩ := by
    norm_num [update, applyPhysics, handleInput, longitudinalStep, turnStep, qabs, qsign,
      maxSpeed, acceleration, deceleration, turnSpeed, boundary, min_def, max_def]
  have e3 : update (fun _ => 0) (fun _ => 1) ⟨true, false, false, true⟩
      ⟨0, 3 / 125, 3 / 62500, 2 / 125, 3 / 100⟩ =
      ⟨0, 6 / 125, 3 / 15625, 3 / 125, 3 / 50⟩ := by
    norm_num [update, applyPhysics, handleInput, longitudinalStep, turnStep, qabs, qsign,
      maxSpeed, acceleration, deceleration, turnSpeed, boundary, min_def, max_def]
  have e4 : update (fun _ => 0) (fun _ => 1) rightInput
      ⟨0, 6 / 125, 3 / 15625, 3 / 125, 3 / 50⟩ =
      ⟨0, 31 / 500, 159 / 500000, 7 / 500, 9 / 100⟩ := by
    norm_num [update, applyPhysics, handleInput, longitudinalStep, turnStep, qabs, qsign,
      rightInput, maxSpeed, acceleration, deceleration, turnSpeed, boundary, min_def, max_def]
  have e5 : update (fun _ => 0) (fun _ => 1) noInput
      ⟨0, 31 / 500, 159 / 500000, 7 / 500, 9 / 100⟩ =
      ⟨0, 33 / 500, 159 / 500000, 1 / 250, 0⟩ := by
    norm_num [update, applyPhysics, handleInput, longitudinalStep, turnStep, qabs, qsign,
      noInput, maxSpeed, acceleration, deceleration, turnSpeed, boundary, min_def, max_def]
  have hrun : run (fun _ => 0) (fun _ => 1)
      [accelInput, ⟨true, false, false, true⟩, ⟨true, false, false, true⟩, rightInput]
      initialVState = ⟨0, 31 / 500, 159 / 500000, 7 / 500, 9 / 100⟩ := by
    show update (fun _ => 0) (fun _ => 1) rightInput
      (update (fun _ => 0) (fun _ => 1) ⟨true, false, false, true⟩
        (update (fun _ => 0) (fun _ => 1) ⟨true, false, false, true⟩
          (update (fun _ => 0) (fun _ => 1) accelInput initialVState))) =
      ⟨0, 31 / 500, 159 / 500000, 7 / 500, 9 / 100⟩
    rw [e1, e2, e3, e4]
  refine ⟨by rw [hrun], by rw [hrun, e5], ?_⟩
  rw [zero_sub, abs_neg, abs_of_nonneg (by norm_num : (0 : ℚ) ≤ 9 / 100)]
  norm_num [turnSpeed]

lemma update_rotation_eq (sinF cosF : ℚ → ℚ) (inp : VInput) (s : VState) :
    (update sinF cosF inp s).rotation =
      s.rotation + turnStep inp (longitudinalStep inp s.speed) s.currentTurn *
        qabs (longitudinalStep inp s.speed) * (1 / 10) := rfl

lemma update_rotation_deadzone (sinF cosF : ℚ → ℚ) (inp : VInput) (s : VState)
    (h : qabs (longitudinalStep inp s.speed) ≤ 1 / 100) :
    (update sinF cosF inp s).rotation = s.rotation := by
  rw [update_rotation_eq, turnStep_deadzone inp _ _ h, zero_mul, zero_mul, add_zero]

/-- Claim C7: along any run in which, on every tick, the speed consulted
by the steering block (the post-longitudinal speed) is inside the turn
deadzone `0.01`, the heading after the run equals the heading before it,
whatever steering inputs are held. -/
theorem deadzone_heading_unchanged (sinF cosF : ℚ → ℚ) (inps : List VInput) (s : VState)
    (h : deadzoneRun sinF cosF inps s = true) :
    (run sinF cosF inps s).rotation = s.rotation := by
  induction inps generalizing s with
  | nil => rfl
  | cons inp rest ih =>
    simp only [deadzoneRun, Bool.and_eq_true, decide_eq_true_eq] at h
    obtain ⟨h1, h2⟩ := h
    show (run sinF cosF rest (update sinF cosF inp s)).rotation = s.rotation
    rw [ih (update sinF cosF inp s) h2, update_rotation_deadzone sinF cosF inp s h1]

/-- Witness for C7: three ticks of steer-left held from the start state
(speed 0 throughout) leave the heading at its initial value. -/
theorem deadzone_heading_unchanged_witness :
    (run (fun _ => 0) (fun _ => 1) [leftInput, leftInput, leftInput]
      initialVState).rotation = initialVState.rotation :=
  deadzone_heading_unchanged (fun _ => 0) (fun _ => 1) [leftInput, leftInput, leftInput]
    initialVState (by norm_num [deadzoneRun, update, applyPhysics, handleInput,
      longitudinalStep, turnStep, qabs, qsign, initialVState, leftInput, maxSpeed,
      acceleration, deceleration, turnSpeed, boundary, min_def, max_def])

lemma qabs_eq_abs (q : ℚ) : qabs q = |q| := by
  unfold qabs
  rcases lt_or_ge q 0 with h | h
  · rw [if_pos h, abs_of_neg h]
  · rw [if_neg (not_lt.mpr h), abs_of_nonneg h]

lemma qabs_nonneg (q : ℚ) : 0 ≤ qabs q := by
  rw [qabs_eq_abs]; exact abs_nonneg q

lemma longitudinalStep_noInput (v : ℚ) : longitudinalStep noInput v = decaySpeed v := rfl

lemma decaySpeed_qabs (v : ℚ) : qabs (decaySpeed v) = max 0 (qabs v - deceleration) := by
  unfold decaySpeed qabs deceleration
  simp only [max_def, min_def]
  split_ifs <;> linarith

lemma decaySpeed_sign (v : ℚ) :
    (0 ≤ v → 0 ≤ decaySpeed v) ∧ (v ≤ 0 → decaySpeed v ≤ 0) := by
  unfold decaySpeed deceleration
  constructor <;> intro h <;> simp only [max_def, min_def] <;> split_ifs <;> linarith

lemma travelBound_nonneg (u : ℚ) (h : 0 ≤ u) : 0 ≤ travelBound u := by
  unfold travelBound; nlinarith

lemma travelBound_step (u : ℚ) (hu : 0 ≤ u) :
    max 0 (u - 1 / 100) + travelBound (max 0 (u - 1 / 100)) ≤ travelBound u := by
  unfold travelBound
  simp only [max_def]
  split_ifs <;> nlinarith

lemma handleInput_x (inp : VInput) (s : VState) : (handleInput inp s).x = s.x := rfl

lemma handleInput_z (inp : VInput) (s : VState) : (handleInput inp s).z = s.z := rfl

lemma handleInput_speed (inp : VInput) (s : VState) :
    (handleInput inp s).speed = longitudinalStep inp s.speed := rfl

lemma update_x_eq (sinF cosF : ℚ → ℚ) (inp : VInput) (s : VState) :
    (update sinF cosF inp s).x =
      if qabs (movedX sinF inp s) > boundary then qsign (movedX sinF inp s) * boundary
      else movedX sinF inp s := rfl

lemma update_z_eq (sinF cosF : ℚ → ℚ) (inp : VInput) (s : VState) :
    (update sinF cosF inp s).z =
      if qabs (movedZ cosF inp s) > boundary then qsign (movedZ cosF inp s) * boundary
      else movedZ cosF inp s := rfl

lemma update_speed_eq (sinF cosF : ℚ → ℚ) (inp : VInput) (s : VState) :
    (update sinF cosF inp s).speed =
      if qabs (movedZ cosF inp s) > boundary then
        (if qabs (movedX sinF inp s) > boundary then (handleInput inp s).speed * (1 / 2)
          else (handleInput inp s).speed) * (1 / 2)
      else if qabs (movedX sinF inp s) > boundary then (handleInput inp s).speed * (1 / 2)
      else (handleInput inp s).speed := rfl

lemma moved_bound (a b w : ℚ) (hb : qabs b ≤ 1) :
    qabs (a + b * w) ≤ qabs a + qabs w := by
  rw [qabs_eq_abs] at hb ⊢
  rw [qabs_eq_abs, qabs_eq_abs]
  calc |a + b * w| ≤ |a| + |b * w| := abs_add a (b * w)
    _ ≤ |a| + |w| := by
      rw [abs_mul]
      have := mul_le_of_le_one_left (abs_nonneg w) hb
      linarith

lemma coast_step (sinF cosF : ℚ → ℚ) (hs : ∀ r, qabs (sinF r) ≤ 1)
    (hc : ∀ r, qabs (cosF r) ≤ 1) (s : VState) (hJ : coastInv s) :
    (update sinF cosF noInput s).speed = decaySpeed s.speed ∧
      coastInv (update sinF cosF noInput s) := by
  have hvabs : qabs (handleInput noInput s).speed = max 0 (qabs s.speed - 1 / 100) := by
    rw [handleInput_speed, longitudinalStep_noInput, decaySpeed_qabs]
    rfl
  have hA : qabs (handleInput noInput s).speed +
      travelBound (qabs (handleInput noInput s).speed) ≤ travelBound (qabs s.speed) := by
    rw [hvabs]
    exact travelBound_step (qabs s.speed) (qabs_nonneg s.speed)
  have htb : 0 ≤ travelBound (qabs (handleInput noInput s).speed) :=
    travelBound_nonneg _ (qabs_nonneg _)
  have hxle : qabs (movedX sinF noInput s) +
      travelBound (qabs (handleInput noInput s).speed) ≤ 50 := by
    have h2 := moved_bound (handleInput noInput s).x
      (sinF (handleInput noInput s).rotation) (handleInput noInput s).speed
      (hs (handleInput noInput s).rotation)
    rw [handleInput_x] at h2
    have := hJ.1
    unfold movedX
    rw [handleInput_x]
    linarith
  have hzle : qabs (movedZ cosF noInput s) +
      travelBound (qabs (handleInput noInput s).speed) ≤ 50 := by
    have h2 := moved_bound (handleInput noInput s).z
      (cosF (handleInput noInput s).rotation) (handleInput noInput s).speed
      (hc (handleInput noInput s).rotation)
    rw [handleInput_z] at h2
    have := hJ.2
    unfold movedZ
    rw [handleInput_z]
    linarith
  have hxc : ¬ qabs (movedX sinF noInput s) > boundary := by
    rw [show boundary = (50 : ℚ) from rfl]
    push_neg
    linarith
  have hzc : ¬ qabs (movedZ cosF noInput s) > boundary := by
    rw [show boundary = (50 : ℚ) from rfl]
    push_neg
    linarith
  refine ⟨?_, ?_, ?_⟩
  · rw [update_speed_eq, if_neg hzc, if_neg hxc, handleInput_speed,
      longitudinalStep_noInput]
  · rw [update_x_eq, if_neg hxc, update_speed_eq, if_neg hzc, if_neg hxc]
    linarith
  · rw [update_z_eq, if_neg hzc, update_speed_eq, if_neg hzc, if_neg hxc]
    linarith

lemma coast_inv_iter (sinF cosF : ℚ → ℚ) (hs : ∀ r, qabs (sinF r) ≤ 1)
    (hc : ∀ r, qabs (cosF r) ≤ 1) (s : VState) (hJ : coastInv s) :
    ∀ n : ℕ, coastInv (iter sinF cosF noInput n s) := by
  intro n
  induction n with
  | zero => exact hJ
  | succ k ih => exact (coast_step sinF cosF hs hc _ ih).2

lemma qabs_pos_of_ne (v : ℚ) (h : v ≠ 0) : 0 < qabs v := by
  rw [qabs_eq_abs]
  exact abs_pos.mpr h

/-- Claim C6: from any state whose distance to the arena boundary exceeds
the total remaining coasting travel (in particular any start near the
middle of the arena, at every starting speed), ticks with no accelerate
and no brake input decrease `|speed|` by exactly `deceleration` per tick,
truncated at 0 (never overshooting), so `|speed|` strictly decreases
while nonzero and stays exactly 0 once 0. -/
theorem coasting_speed_decay (sinF cosF : ℚ → ℚ)
    (hs : ∀ r, qabs (sinF r) ≤ 1) (hc : ∀ r, qabs (cosF r) ≤ 1)
    (s : VState) (hJ : coastInv s) (n : ℕ) :
    (iter sinF cosF noInput (n + 1) s).speed =
      decaySpeed (iter sinF cosF noInput n s).speed ∧
    qabs (iter sinF cosF noInput (n + 1) s).speed =
      max 0 (qabs (iter sinF cosF noInput n s).speed - deceleration) ∧
    ((iter sinF cosF noInput n s).speed = 0 →
      (iter sinF cosF noInput (n + 1) s).speed = 0) ∧
    ((iter sinF cosF noInput n s).speed ≠ 0 →
      qabs (iter sinF cosF noInput (n + 1) s).speed <
        qabs (iter sinF cosF noInput n s).speed) := by
  have hIn := coast_inv_iter sinF cosF hs hc s hJ n
  have h1 : (iter sinF cosF noInput (n + 1) s).speed =
      decaySpeed (iter sinF cosF noInput n s).speed :=
    (coast_step sinF cosF hs hc _ hIn).1
  refine ⟨h1, ?_, ?_, ?_⟩
  · rw [h1, decaySpeed_qabs]
  · intro h0
    rw [h1, h0]
    norm_num [decaySpeed]
  · intro hne
    rw [h1, decaySpeed_qabs]
    have hp := qabs_pos_of_ne _ hne
    unfold deceleration
    simp only [max_def]
    split_ifs <;> linarith

/-- Witness for C6: a coasting tick from the arena centre at speed 0.25
drops the speed to `decaySpeed 0.25 = 0.24`, i.e. `|speed|` falls by
exactly the deceleration constant. -/
theorem coasting_speed_decay_witness :
    (iter (fun _ => 0) (fun _ => 1) noInput (0 + 1) ⟨0, 0, 0, 1 / 4, 0⟩).speed =
      decaySpeed (iter (fun _ => 0) (fun _ => 1) noInput 0 ⟨0, 0, 0, 1 / 4, 0⟩).speed ∧
    qabs (iter (fun _ => 0) (fun _ => 1) noInput (0 + 1) ⟨0, 0, 0, 1 / 4, 0⟩).speed =
      max 0 (qabs (iter (fun _ => 0) (fun _ => 1) noInput 0 ⟨0, 0, 0, 1 / 4, 0⟩).speed -
        deceleration) ∧
    ((iter (fun _ => 0) (fun _ => 1) noInput 0 ⟨0, 0, 0, 1 / 4, 0⟩).speed = 0 →
      (iter (fun _ => 0) (fun _ => 1) noInput (0 + 1) ⟨0, 0, 0, 1 / 4, 0⟩).speed = 0) ∧
    ((iter (fun _ => 0) (fun _ => 1) noInput 0 ⟨0, 0, 0, 1 / 4, 0⟩).speed ≠ 0 →
      qabs (iter (fun _ => 0) (fun _ => 1) noInput (0 + 1) ⟨0, 0, 0, 1 / 4, 0⟩).speed <
        qabs (iter (fun _ => 0) (fun _ => 1) noInput 0 ⟨0, 0, 0, 1 / 4, 0⟩).speed) :=
  coasting_speed_decay (fun _ => 0) (fun _ => 1)
    (fun r => by norm_num [qabs]) (fun r => by norm_num [qabs])
    ⟨0, 0, 0, 1 / 4, 0⟩
    (by constructor <;> norm_num [qabs, travelBound, coastInv]) 0

/-- Claim C8 (amended): each coordinate whose moved value exceeds the
arena boundary 50 is clamped to exactly `±boundary` and each such clamp
halves the speed once relative to its pre-clamp (post-`handleInput`)
value: a single exceeded coordinate gives half the pre-clamp speed, both
coordinates exceeded in the same tick give a quarter of it; coordinates
that stay inside the boundary pass through unclamped. -/
theorem boundary_clamp_behavior (sinF cosF : ℚ → ℚ) (inp : VInput) (s : VState) :
    (qabs (movedX sinF inp s) > boundary → qabs (movedZ cosF inp s) ≤ boundary →
      (update sinF cosF inp s).x = qsign (movedX sinF inp s) * boundary ∧
      (update sinF cosF inp s).z = movedZ cosF inp s ∧
      (update sinF cosF inp s).speed = (handleInput inp s).speed * (1 / 2)) ∧
    (qabs (movedZ cosF inp s) > boundary → qabs (movedX sinF inp s) ≤ boundary →
      (update sinF cosF inp s).z = qsign (movedZ cosF inp s) * boundary ∧
      (update sinF cosF inp s).x = movedX sinF inp s ∧
      (update sinF cosF inp s).speed = (handleInput inp s).speed * (1 / 2)) ∧
    (qabs (movedX sinF inp s) > boundary → qabs (movedZ cosF inp s) > boundary →
      (update sinF cosF inp s).x = qsign (movedX sinF inp s) * boundary ∧
      (update sinF cosF inp s).z = qsign (movedZ cosF inp s) * boundary ∧
      (update sinF cosF inp s).speed = (handleInput inp s).speed * (1 / 4)) ∧
    (qabs (movedX sinF inp s) ≤ boundary → qabs (movedZ cosF inp s) ≤ boundary →
      (update sinF cosF inp s).x = movedX sinF inp s ∧
      (update sinF cosF inp s).z = movedZ cosF inp s ∧
      (update sinF cosF inp s).speed = (handleInput inp s).speed) := by
  refine ⟨fun hx hz => ?_, fun hz hx => ?_, fun hx hz => ?_, fun hx hz => ?_⟩
  · rw [update_x_eq, if_pos hx, update_z_eq, if_neg (not_lt.mpr hz),
      update_speed_eq, if_neg (not_lt.mpr hz), if_pos hx]
    exact ⟨rfl, rfl, rfl⟩
  · rw [update_z_eq, if_pos hz, update_x_eq, if_neg (not_lt.mpr hx),
      update_speed_eq, if_pos hz, if_neg (not_lt.mpr hx)]
    exact ⟨rfl, rfl, rfl⟩
  · rw [update_x_eq, if_pos hx, update_z_eq, if_pos hz,
      update_speed_eq, if_pos hz, if_pos hx]
    exact ⟨rfl, rfl, by ring⟩
  · rw [update_x_eq, if_neg (not_lt.mpr hx), update_z_eq, if_neg (not_lt.mpr hz),
      update_speed_eq, if_neg (not_lt.mpr hz), if_neg (not_lt.mpr hx)]
    exact ⟨rfl, rfl, rfl⟩

/-- Witness for the amended C8: coasting at pre-clamp speed 0.29 from
x = 49.9 heading straight along x (`sin = 1, cos = 0`), the moved x is
50.19 > 50, so x clamps to the boundary and the speed is halved. -/
theorem boundary_clamp_behavior_witness :
    (update (fun _ => 1) (fun _ => 0) noInput ⟨499 / 10, 0, 0, 3 / 10, 0⟩).x =
      qsign (movedX (fun _ => 1) noInput ⟨499 / 10, 0, 0, 3 / 10, 0⟩) * boundary ∧
    (update (fun _ => 1) (fun _ => 0) noInput ⟨499 / 10, 0, 0, 3 / 10, 0⟩).z =
      movedZ (fun _ => 0) noInput ⟨499 / 10, 0, 0, 3 / 10, 0⟩ ∧
    (update (fun _ => 1) (fun _ => 0) noInput ⟨499 / 10, 0, 0, 3 / 10, 0⟩).speed =
      (handleInput noInput ⟨499 / 10, 0, 0, 3 / 10, 0⟩).speed * (1 / 2) :=
  (boundary_clamp_behavior (fun _ => 1) (fun _ => 0) noInput ⟨499 / 10, 0, 0, 3 / 10, 0⟩).1
    (by norm_num [movedX, handleInput, longitudinalStep, turnStep, qabs, noInput,
      maxSpeed, acceleration, deceleration, turnSpeed, boundary, min_def, max_def])
    (by norm_num [movedZ, handleInput, longitudinalStep, turnStep, qabs, noInput,
      maxSpeed, acceleration, deceleration, turnSpeed, boundary, min_def, max_def])

/-- Counterexample to C8 as stated: in the arena corner (49.9, 49.9),
coasting diagonally (`sin = 3/5, cos = 4/5`, the sine and cosine of a
common real angle) at pre-clamp speed 0.29, both moved coordinates
exceed the boundary (50.074 and 50.132), and the updated speed is
0.0725 = 0.29/4 — a quarter of the pre-clamp value, not the half the
claim asserts for a tick whose x move crosses the boundary. -/
theorem boundary_double_clamp_counterexample :
    qabs (movedX (fun _ => 3 / 5) noInput ⟨499 / 10, 499 / 10, 0, 3 / 10, 0⟩) > boundary ∧
    qabs (movedZ (fun _ => 4 / 5) noInput ⟨499 / 10, 499 / 10, 0, 3 / 10, 0⟩) > boundary ∧
    (handleInput noInput ⟨499 / 10, 499 / 10, 0, 3 / 10, 0⟩).speed = 29 / 100 ∧
    (update (fun _ => 3 / 5) (fun _ => 4 / 5) noInput
      ⟨499 / 10, 499 / 10, 0, 3 / 10, 0⟩).speed = 29 / 400 ∧
    ¬ (29 / 400 : ℚ) = 29 / 100 * (1 / 2) := by
  refine ⟨?_, ?_, ?_, ?_, by norm_num⟩ <;>
    norm_num [movedX, movedZ, update, applyPhysics, handleInput, longitudinalStep,
      turnStep, qabs, qsign, noInput, maxSpeed, acceleration, deceleration, turnSpeed,
      boundary, min_def, max_def]


lemma accelZ_le_succ (n : ℕ) : accelZ n ≤ accelZ (n + 1) := by
  have h : 0 ≤ min (((n : ℚ) + 1) / 125) (3 / 10) :=
    le_min (by positivity) (by norm_num)
  show accelZ n ≤ accelZ n + min (((n : ℚ) + 1) / 125) (3 / 10)
  linarith

lemma accelZ_monotone : Monotone accelZ :=
  monotone_nat_of_le_succ accelZ_le_succ

lemma accelZ_le_37 : ∀ n : ℕ, n ≤ 37 → accelZ n = (n : ℚ) * ((n : ℚ) + 1) / 250 := by
  intro n
  induction n with
  | zero => intro _; norm_num [accelZ]
  | succ k ih =>
    intro hn
    have hk : k ≤ 37 := le_trans (Nat.le_succ k) hn
    have hk36 : (k : ℚ) ≤ 36 := by exact_mod_cast (by omega : k ≤ 36)
    have hmin : min (((k : ℚ) + 1) / 125) (3 / 10) = ((k : ℚ) + 1) / 125 :=
      min_eq_left (by linarith)
    show accelZ k + min (((k : ℚ) + 1) / 125) (3 / 10) = _
    rw [ih hk, hmin]
    push_cast
    ring

lemma accelZ_ge_37 (n : ℕ) (hn : 37 ≤ n) :
    accelZ n = 703 / 125 + ((n : ℚ) - 37) * (3 / 10) := by
  induction n, hn using Nat.le_induction with
  | base =>
    rw [accelZ_le_37 37 (le_refl 37)]
    norm_num
  | succ k hk ih =>
    have hk37 : (37 : ℚ) ≤ (k : ℚ) := by exact_mod_cast hk
    have hmin : min (((k : ℚ) + 1) / 125) (3 / 10) = 3 / 10 :=
      min_eq_right (by linarith)
    show accelZ k + min (((k : ℚ) + 1) / 125) (3 / 10) = _
    rw [ih, hmin]
    push_cast
    ring

lemma accelZ_184 : accelZ 184 = 12431 / 250 := by
  rw [accelZ_ge_37 184 (by norm_num)]
  norm_num

lemma accelZ_le_bound (n : ℕ) (hn : n ≤ 184) : accelZ n ≤ 12431 / 250 :=
  accelZ_184 ▸ accelZ_monotone hn

lemma longitudinalStep_accel (v : ℚ) :
    longitudinalStep accelInput v = min (v + 1 / 125) (3 / 10) := rfl

lemma turnStep_no_steer (inp : VInput) (hL : inp.turnLeft = false)
    (hR : inp.turnRight = false) (w : ℚ) : turnStep inp w 0 = 0 := by
  unfold turnStep
  rw [hL, hR]
  split_ifs <;> simp_all [turnSpeed]

lemma accel_min_shift (n : ℕ) :
    min (min ((n : ℚ) / 125) (3 / 10) + 1 / 125) (3 / 10) =
      min (((n : ℚ) + 1) / 125) (3 / 10) := by
  rcases le_total ((n : ℚ) / 125) (3 / 10) with h | h
  · rw [min_eq_left h, show (n : ℚ) / 125 + 1 / 125 = ((n : ℚ) + 1) / 125 by ring]
  · rw [min_eq_right h,
      min_eq_right (by linarith : (3 : ℚ) / 10 ≤ 3 / 10 + 1 / 125),
      eq_comm]
    exact min_eq_right (by linarith : (3 : ℚ) / 10 ≤ ((n : ℚ) + 1) / 125)

lemma handleInput_accel_eval (zc v : ℚ) :
    handleInput accelInput ⟨0, zc, 0, v, 0⟩ =
      ⟨0, zc, 0, min (v + 1 / 125) (3 / 10), 0⟩ := by
  simp only [handleInput, longitudinalStep_accel,
    turnStep_no_steer accelInput rfl rfl, zero_mul, add_zero]

lemma applyPhysics_center_eval (sinF cosF : ℚ → ℚ) (h0 : sinF 0 = 0) (h1 : cosF 0 = 1)
    (zc w : ℚ) (hz0 : 0 ≤ zc) (hw0 : 0 ≤ w) (hzb : zc + w ≤ 50) :
    applyPhysics sinF cosF ⟨0, zc, 0, w, 0⟩ = ⟨0, zc + w, 0, w, 0⟩ := by
  have hx : ¬ qabs ((0 : ℚ) + sinF 0 * w) > boundary := by
    rw [h0, zero_mul, add_zero, show boundary = (50 : ℚ) from rfl]
    norm_num [qabs]
  have hz : ¬ qabs (zc + cosF 0 * w) > boundary := by
    rw [h1, one_mul, show boundary = (50 : ℚ) from rfl]
    unfold qabs
    rw [if_neg (by linarith : ¬ zc + w < 0)]
    push_neg
    linarith
  simp only [applyPhysics]
  rw [if_neg hx, if_neg hx, if_neg hz, if_neg hz, h0, h1, zero_mul, add_zero, one_mul]

lemma accel_run_charac (sinF cosF : ℚ → ℚ) (h0 : sinF 0 = 0) (h1 : cosF 0 = 1) :
    ∀ n : ℕ, n ≤ 184 →
      iter sinF cosF accelInput n initialVState =
        ⟨0, accelZ n, 0, min ((n : ℚ) / 125) (3 / 10), 0⟩ := by
  intro n
  induction n with
  | zero =>
    intro _
    show initialVState = _
    rw [show accelZ 0 = 0 from rfl, Nat.cast_zero, zero_div,
      min_eq_left (by norm_num : (0 : ℚ) ≤ 3 / 10)]
    rfl
  | succ k ih =>
    intro hk
    have hk184 : k ≤ 184 := by omega
    have hv0 : 0 ≤ min ((k : ℚ) / 125) (3 / 10) := le_min (by positivity) (by norm_num)
    have hz0 : 0 ≤ accelZ k := by
      have := accelZ_monotone (Nat.zero_le k)
      rw [show accelZ 0 = 0 from rfl] at this
      exact this
    have hw0 : 0 ≤ min (min ((k : ℚ) / 125) (3 / 10) + 1 / 125) (3 / 10) :=
      le_min (by linarith) (by norm_num)
    have hzb : accelZ k + min (min ((k : ℚ) / 125) (3 / 10) + 1 / 125) (3 / 10) ≤ 50 := by
      rw [accel_min_shift k]
      have hstep : accelZ (k + 1) = accelZ k + min (((k : ℚ) + 1) / 125) (3 / 10) := rfl
      have hb := accelZ_le_bound (k + 1) hk
      rw [hstep] at hb
      linarith
    show update sinF cosF accelInput (iter sinF cosF accelInput k initialVState) = _
    rw [ih hk184]
    unfold update
    rw [handleInput_accel_eval,
      applyPhysics_center_eval sinF cosF h0 h1 _ _ hz0 hw0 hzb,
      accel_min_shift k]
    have hstep : accelZ (k + 1) = accelZ k + min (((k : ℚ) + 1) / 125) (3 / 10) := rfl
    rw [← hstep, Nat.cast_succ]

/-- Claim C9 (amended): with accelerate held from the start state, as
long as the vehicle has not yet reached the arena boundary (which from
the origin happens only after tick 184), the speed after `n` ticks is
exactly `min(n * 0.008, 0.3)`: it is still 0.296 at tick 37, first
reaches the cap 0.3 at tick 38 and stays 0.3 on the accelerating ticks
that follow; once the boundary is reached the clamp halves the speed. -/
theorem accel_speed_capped (sinF cosF : ℚ → ℚ) (h0 : sinF 0 = 0) (h1 : cosF 0 = 1)
    (n : ℕ) (hn : n ≤ 184) :
    (iter sinF cosF accelInput n initialVState).speed = min ((n : ℚ) / 125) (3 / 10) ∧
    (iter sinF cosF accelInput 37 initialVState).speed < 3 / 10 ∧
    (iter sinF cosF accelInput 38 initialVState).speed = 3 / 10 := by
  refine ⟨?_, ?_, ?_⟩
  · rw [accel_run_charac sinF cosF h0 h1 n hn]
  · rw [accel_run_charac sinF cosF h0 h1 37 (by norm_num)]
    show min (((37 : ℕ) : ℚ) / 125) (3 / 10) < 3 / 10
    rw [min_eq_left (by push_cast; norm_num)]
    push_cast
    norm_num
  · rw [accel_run_charac sinF cosF h0 h1 38 (by norm_num)]
    show min (((38 : ℕ) : ℚ) / 125) (3 / 10) = 3 / 10
    rw [min_eq_right (by push_cast; norm_num)]

/-- Witness for the amended C9 at tick 50 (the spec scenario's horizon):
the speed equals `min(50 * 0.008, 0.3) = 0.3`. -/
theorem accel_speed_capped_witness :
    (iter (fun _ => 0) (fun _ => 1) accelInput 50 initialVState).speed =
      min (((50 : ℕ) : ℚ) / 125) (3 / 10) ∧
    (iter (fun _ => 0) (fun _ => 1) accelInput 37 initialVState).speed < 3 / 10 ∧
    (iter (fun _ => 0) (fun _ => 1) accelInput 38 initialVState).speed = 3 / 10 :=
  accel_speed_capped (fun _ => 0) (fun _ => 1) rfl rfl 50 (by norm_num)

/-- Counterexample to C9 as stated: still accelerating straight from the
origin, at tick 185 the z coordinate would reach 50.024 > 50, the arena
clamp fires and the post-update speed is 0.15, not the claimed
`min(185 * 0.008, 0.3) = 0.3` — the cap is not kept on every subsequent
accelerating tick. -/
theorem accel_cap_lost_at_boundary_counterexample :
    (iter (fun _ => 0) (fun _ => 1) accelInput 185 initialVState).speed = 3 / 20 ∧
    ¬ (3 / 20 : ℚ) = min ((185 : ℚ) / 125) (3 / 10) := by
  constructor
  · show (update (fun _ => 0) (fun _ => 1) accelInput
      (iter (fun _ => 0) (fun _ => 1) accelInput 184 initialVState)).speed = 3 / 20
    rw [accel_run_charac (fun _ => 0) (fun _ => 1) rfl rfl 184 (by norm_num),
      accelZ_184,
      show min (((184 : ℕ) : ℚ) / 125) (3 / 10) = 3 / 10 from
        min_eq_right (by push_cast; norm_num)]
    norm_num [update, applyPhysics, handleInput, longitudinalStep, turnStep, qabs,
      qsign, accelInput, maxSpeed, acceleration, deceleration, turnSpeed, boundary,
      min_def, max_def]
  · rw [min_eq_right (by norm_num : (3 : ℚ) / 10 ≤ 185 / 125)]
    norm_num
